import Mathlib

/-!
Verification development for the BunnyChat frontend client, centered on the
realtime transcript synchronizer: optimistic sends, correlation-id
reconciliation, duplicate suppression, the socket listener lifecycle
wrapper, history loading, and send rollback.

The definitions below are shallow embeddings of the TypeScript source:

* `GroupChat.tsx` — the group conversation view: its `group-message` socket
  listener, `loadMessages`, and `handleSendMessage`.
* `AnonymousChat` (components/anonymous) — the anonymous-room view: its
  `receive-anonymous-message` listener and `handleSendMessage`.
* `ChatWindow` (components/chat) — the direct (friend) conversation view:
  its `receive-message` listener and `handleSendMessage`.
* `services/socket.ts` — the `SocketService` wrapper over the socket.io
  transport: `connect`, `disconnect`, `on`, `off`, `emit`.

React state updates (`setMessages(prev => ...)`) become pure functions from
the previous transcript to the next one; awaited network calls are split
into a start stage (everything before the `await`) and a settle stage (the
`then`/`catch` continuation), with the outcome passed in explicitly.
JavaScript `Date.now()` becomes an explicit `now : Nat` parameter and
`Date.now().toString()` becomes `Nat.repr now`.
-/

/-! ## Data model -/

/-- `GroupMember` from `types/group.types.ts`. -/
structure GroupMember where
  _id : String
  name : String
  email : String
deriving Repr, DecidableEq

/-- `GroupMessage` from `types/group.types.ts`. -/
structure GroupMessage where
  id : String
  groupId : String
  sender : GroupMember
  content : String
  isSystemMessage : Bool
  createdAt : String
deriving Repr, DecidableEq

/-- Payload of the `group-message` socket event, as the `GroupChat`
listener reads it (`data.id`, `data.groupId`, `data.senderId`,
`data.senderName`, `data.content`, `data.isSystemMessage`,
`data.timestamp`, `data.clientId`).  `clientId` is optional: `none` models
an absent field. -/
structure GroupMessageEvent where
  id : String
  groupId : String
  senderId : String
  senderName : String
  content : String
  isSystemMessage : Bool
  timestamp : String
  clientId : Option String
deriving Repr, DecidableEq

/-- `AnonymousMessage` from `services/anonymousRoomApi.ts` (the optional
`isMe?` field is always set by the code paths modelled here, so it is a
plain `Bool`). -/
structure AnonymousMessage where
  id : String
  anonymousName : String
  content : String
  createdAt : String
  isMe : Bool
deriving Repr, DecidableEq

/-- Payload of the `receive-anonymous-message` socket event as read by the
`AnonymousChat` listener. -/
structure AnonymousMessageEvent where
  id : String
  roomId : String
  anonymousName : String
  content : String
  createdAt : String
  clientId : Option String
deriving Repr, DecidableEq

/-- `Message` from `services/chatApi.ts` (direct chat). -/
structure Message where
  _id : String
  sender : String
  recipient : String
  content : String
  isRead : Bool
  createdAt : String
deriving Repr, DecidableEq

/-- Payload of the `receive-message` socket event as read by the
`ChatWindow` listener (`data.id`, `data.senderId`, `data.content`,
`data.timestamp`). -/
structure ReceiveMessageEvent where
  id : String
  senderId : String
  content : String
  timestamp : String
deriving Repr, DecidableEq

/-- JavaScript truthiness of the optional `clientId` string field: an
absent field and the empty string are both falsy. -/
def truthy : Option String → Bool
  | none => false
  | some s => !s.isEmpty

/-- The value of a truthy `clientId` (JS reads `data.clientId` directly;
the default is never used on the truthy path). -/
def corrOf : Option String → String
  | none => ""
  | some s => s

/-- JavaScript `String.prototype.trim()`: strip whitespace from both
ends.  (Lean's own `String.trim` is built on `Substring` primitives that
the kernel cannot evaluate, so the same operation is modelled here on the
character list.) -/
def jsTrim (s : String) : String :=
  ((s.data.dropWhile Char.isWhitespace).reverse.dropWhile Char.isWhitespace).reverse.asString

/-! ## Remote-event handlers (onRemoteEvent per conversation kind) -/

/-- The confirmed `GroupMessage` the `group-message` listener builds from
an event (both in the replace branch and the append branch,
`GroupChat.tsx` lines 40-47 and 55-62). -/
def groupEventMessage (d : GroupMessageEvent) : GroupMessage :=
  { id := d.id
    groupId := d.groupId
    sender := { _id := d.senderId, name := d.senderName, email := "" }
    content := d.content
    isSystemMessage := d.isSystemMessage
    createdAt := d.timestamp }

/-- Fallthrough of the `group-message` listener once no optimistic entry
was reconciled: ignore a duplicate server id, else append
(`GroupChat.tsx` lines 52-62). -/
def groupDedupAppend (prev : List GroupMessage) (d : GroupMessageEvent) : List GroupMessage :=
  if prev.any (fun m => m.id == d.id) then prev
  else prev ++ [groupEventMessage d]

/-- The `group-message` socket listener of `GroupChat.tsx` (lines 32-66)
as a transcript transformer: guard on the active group, reconcile an
optimistic entry found by `findIndex` on id `temp_` + clientId by
overwriting that slot, else deduplicate by server id, else append. -/
def onGroupMessage (activeGroupId : String) (prev : List GroupMessage)
    (d : GroupMessageEvent) : List GroupMessage :=
  if d.groupId == activeGroupId then
    if truthy d.clientId then
      match prev.findIdx? (fun m => m.id == "temp_" ++ corrOf d.clientId) with
      | some tempIndex => prev.set tempIndex (groupEventMessage d)
      | none => groupDedupAppend prev d
    else groupDedupAppend prev d
  else prev

/-- The confirmed `AnonymousMessage` the `receive-anonymous-message`
listener builds from an event (`AnonymousChat` lines 64-71 and 79-85). -/
def anonEventMessage (anonymousName : String) (d : AnonymousMessageEvent) : AnonymousMessage :=
  { id := d.id
    anonymousName := d.anonymousName
    content := d.content
    createdAt := d.createdAt
    isMe := d.anonymousName == anonymousName }

/-- Fallthrough of the `receive-anonymous-message` listener (lines 76-85). -/
def anonDedupAppend (anonymousName : String) (prev : List AnonymousMessage)
    (d : AnonymousMessageEvent) : List AnonymousMessage :=
  if prev.any (fun m => m.id == d.id) then prev
  else prev ++ [anonEventMessage anonymousName d]

/-- The `receive-anonymous-message` socket listener of `AnonymousChat`
(lines 56-88) as a transcript transformer. -/
def onReceiveAnonymousMessage (roomId anonymousName : String)
    (prev : List AnonymousMessage) (d : AnonymousMessageEvent) : List AnonymousMessage :=
  if d.roomId == roomId then
    if truthy d.clientId then
      match prev.findIdx? (fun m => m.id == "temp_" ++ corrOf d.clientId) with
      | some tempIndex => prev.set tempIndex (anonEventMessage anonymousName d)
      | none => anonDedupAppend anonymousName prev d
    else anonDedupAppend anonymousName prev d
  else prev

/-- The `receive-message` socket listener of `ChatWindow` (lines 29-42):
append whenever the sender is the open friend.  There is no correlation-id
reconciliation and no duplicate check on this path; the `markAsRead`
side call carries no transcript effect and is omitted.  `userId` stands
for the JS expression `user?.id || ''`. -/
def onReceiveMessage (friendId userId : String) (prev : List Message)
    (d : ReceiveMessageEvent) : List Message :=
  if d.senderId == friendId then
    prev ++ [{ _id := d.id
               sender := d.senderId
               recipient := userId
               content := d.content
               isRead := false
               createdAt := d.timestamp }]
  else prev

/-! ## Spec-side delivery (for the refinement claim) -/

/-- Replace the first element satisfying `p` by `x`, leaving everything
else (and the order) unchanged. -/
def replaceFirst (p : α → Bool) (x : α) : List α → List α
  | [] => []
  | a :: as => if p a then x :: as else a :: replaceFirst p x as

/-- The ordered `onRemoteEvent` behaviour exactly as the spec words it
(spec §4.1, steps 1-4), generalized over the conversation kinds by the id
projection `getId`: (1) an event for another conversation is ignored;
(2) if the event carries a client-correlation id and an optimistic entry
with id equal to the reserved prefix plus that id exists, that entry is
replaced in place by the confirmed message; (3) else an event whose server
id is already present is ignored; (4) else the confirmed message is
appended. -/
def specDeliver {M : Type} (getId : M → String) (convMatches : Bool)
    (clientId : Option String) (serverId : String) (confirmed : M)
    (prev : List M) : List M :=
  if convMatches then
    if truthy clientId && prev.any (fun m => getId m == "temp_" ++ corrOf clientId) then
      replaceFirst (fun m => getId m == "temp_" ++ corrOf clientId) confirmed prev
    else if prev.any (fun m => getId m == serverId) then prev
    else prev ++ [confirmed]
  else prev

/-! ## Local sends (handleSendMessage per conversation kind)

Each `handleSendMessage` is split at its suspension point: the start stage
covers everything executed synchronously before any network response (trim
guard, correlation id generation, optimistic append, issuing the request),
and — for the group chat, the only kind with a failure path — a settle
stage covers the `try`/`catch` continuation. -/

/-- The request `groupApi.sendMessage(group.id, content, clientId)` issued
by the group send (`GroupChat.tsx` line 113). -/
structure GroupSendCall where
  groupId : String
  content : String
  clientId : String
deriving Repr, DecidableEq

/-- The optimistic entry built by the group send (`GroupChat.tsx` lines
102-109).  `userId`/`userName` stand for `user?.id || ''` and
`user?.name || ''`; `nowIso` for `new Date().toISOString()`. -/
def groupTempMsg (groupId userId userName content clientId nowIso : String) : GroupMessage :=
  { id := "temp_" ++ clientId
    groupId := groupId
    sender := { _id := userId, name := userName, email := "" }
    content := content
    isSystemMessage := false
    createdAt := nowIso }

/-- Start stage of `GroupChat.handleSendMessage` (lines 93-113): on empty
trimmed input it returns without touching anything; otherwise it derives
`clientId` from `Date.now()`, appends the optimistic entry and issues
exactly one gateway call.  Returns the new transcript and the issued call
(`none` when no network operation is performed). -/
def handleSendMessageGroupStart (groupId userId userName : String)
    (newMessage : String) (now : Nat) (nowIso : String)
    (prev : List GroupMessage) : List GroupMessage × Option GroupSendCall :=
  if (jsTrim newMessage).isEmpty then (prev, none)
  else
    let content := jsTrim newMessage
    let clientId := Nat.repr now
    (prev ++ [groupTempMsg groupId userId userName content clientId nowIso],
     some { groupId := groupId, content := content, clientId := clientId })

/-- Settle stage of `GroupChat.handleSendMessage` (lines 112-118): on
success the transcript is untouched; on gateway failure the entries with
id `temp_` + clientId are filtered out and a failure is surfaced (the
`toast.error` call), returned here as the `Bool` component.  No retry is
issued (the stage performs no further gateway call). -/
def handleSendMessageGroupSettle (clientId : String) (ok : Bool)
    (cur : List GroupMessage) : List GroupMessage × Bool :=
  if ok then (cur, false)
  else (cur.filter (fun m => m.id != "temp_" ++ clientId), true)

/-- The `send-anonymous-message` socket emission issued by the anonymous
send (`AnonymousChat` lines 134-138). -/
structure AnonEmitCall where
  roomId : String
  content : String
  clientId : String
deriving Repr, DecidableEq

/-- The optimistic entry built by the anonymous send (lines 124-130). -/
def anonTempMsg (anonymousName content clientId nowIso : String) : AnonymousMessage :=
  { id := "temp_" ++ clientId
    anonymousName := anonymousName
    content := content
    createdAt := nowIso
    isMe := true }

/-- `AnonymousChat.handleSendMessage` (lines 116-139): trim guard,
optimistic append, then `socketService.emit`, which forwards to the
transport only while connected and silently drops the emission otherwise.
There is no settle stage in the source: no failure is ever observed, so
nothing is rolled back and nothing is signalled — the third component
(a `SendFailed`-style signal to the caller) is constantly `false`.
Returns (transcript, emission actually forwarded, failure signal). -/
def handleSendMessageAnon (roomId anonymousName : String)
    (newMessage : String) (now : Nat) (nowIso : String) (connected : Bool)
    (prev : List AnonymousMessage) : List AnonymousMessage × Option AnonEmitCall × Bool :=
  if (jsTrim newMessage).isEmpty then (prev, none, false)
  else
    let content := jsTrim newMessage
    let clientId := Nat.repr now
    (prev ++ [anonTempMsg anonymousName content clientId nowIso],
     if connected then
       some { roomId := roomId, content := content, clientId := clientId }
     else none,
     false)

/-- The `send-message` socket emission issued by the direct-chat send
(`ChatWindow` lines 75-78).  It carries no correlation id. -/
structure DirectEmitCall where
  recipientId : String
  content : String
deriving Repr, DecidableEq

/-- The locally appended entry of the direct-chat send (`ChatWindow`
lines 83-90): its `_id` is the bare `Date.now().toString()` — no
`temp_` prefix. -/
def directTempMsg (userId friendId content nowIso : String) (now : Nat) : Message :=
  { _id := Nat.repr now
    sender := userId
    recipient := friendId
    content := content
    isRead := true
    createdAt := nowIso }

/-- `ChatWindow.handleSendMessage` (lines 67-92): trim guard, socket
emission (dropped while disconnected), then the local append.  As in the
anonymous send there is no failure path: the signal component is
constantly `false`. -/
def handleSendMessageDirect (friendId userId : String)
    (newMessage : String) (now : Nat) (nowIso : String) (connected : Bool)
    (prev : List Message) : List Message × Option DirectEmitCall × Bool :=
  if (jsTrim newMessage).isEmpty then (prev, none, false)
  else
    let content := jsTrim newMessage
    (prev ++ [directTempMsg userId friendId content nowIso now],
     if connected then some { recipientId := friendId, content := content }
     else none,
     false)

/-! ## History loading and conversation switching -/

/-- The per-view state relevant to history loading: which conversation the
view currently shows and its transcript. -/
structure ChatViewState where
  activeGroupId : String
  messages : List GroupMessage
deriving Repr, DecidableEq

/-- Switching the active conversation (the `group` prop changes; the
component instance and its `messages` state survive, and a fresh
`loadMessages` is started by the `useEffect` on `group.id`). -/
def switchConversation (s : ChatViewState) (newGroupId : String) : ChatViewState :=
  { s with activeGroupId := newGroupId }

/-- Resolution of an in-flight `loadMessages` call (`GroupChat.tsx` lines
80-91): `setMessages(data)` installs the response unconditionally.
`requestedFor` is the group id the load was started for; the source
never consults it (nor the now-active conversation) when the response
arrives. -/
def loadMessagesApply (s : ChatViewState) (requestedFor : String)
    (data : List GroupMessage) : ChatViewState :=
  { s with messages := data }

/-- The resolution behaviour the spec requires instead (spec §5,
Cancellation): results whose requested-for tag no longer matches the
active conversation are discarded.  Stated for comparison with
`loadMessagesApply`. -/
def loadMessagesApplySpec (s : ChatViewState) (requestedFor : String)
    (data : List GroupMessage) : ChatViewState :=
  if requestedFor == s.activeGroupId then { s with messages := data } else s

/-! ## SocketService (services/socket.ts)

Callbacks are identified abstractly by naturals.  The socket.io transport
is modelled by its standard EventEmitter semantics: `socket.on` appends an
(event, callback) attachment — attaching the same callback again attaches
it a second time — and delivering an event invokes every attachment for
that event in order.  The transport's asynchronous connection handshake is
abstracted: a freshly created socket is modelled as connected. -/

/-- The live transport instance held in `SocketService.socket`. -/
structure Sock where
  connected : Bool
  handlers : List (String × Nat)
deriving Repr, DecidableEq

/-- `SocketService` state: the optional transport and the process-wide
listener registry `Map<string, Set<callback>>`, modelled as an association
list (unique keys) of duplicate-free callback lists. -/
structure SocketServiceState where
  socket : Option Sock
  listeners : List (String × List Nat)
deriving Repr, DecidableEq

/-- Look an event up in the listener registry (`this.listeners.get(event)`,
the empty set when absent). -/
def registryGet (l : List (String × List Nat)) (event : String) : List Nat :=
  match l.find? (fun p => p.1 == event) with
  | some p => p.2
  | none => []

/-- Add a callback to the registry under an event name: create the entry
when missing, and add to the set only when not already present
(`Set.add`). -/
def registryAdd (l : List (String × List Nat)) (event : String) (cb : Nat) :
    List (String × List Nat) :=
  match l.find? (fun p => p.1 == event) with
  | some _ =>
      l.map (fun p =>
        if p.1 == event then
          (p.1, if p.2.contains cb then p.2 else p.2 ++ [cb])
        else p)
  | none => l ++ [(event, [cb])]

/-- Remove a callback from the registry under an event name
(`this.listeners.get(event)?.delete(callback)`): a no-op when the entry or
the callback is absent. -/
def registryRemove (l : List (String × List Nat)) (event : String) (cb : Nat) :
    List (String × List Nat) :=
  l.map (fun p => if p.1 == event then (p.1, p.2.filter (fun c => c != cb)) else p)

/-- Remove the first element satisfying `p` (EventEmitter `off`: the
transport unregisters one matching attachment). -/
def removeFirst (p : α → Bool) : List α → List α
  | [] => []
  | a :: as => if p a then as else a :: removeFirst p as

/-- The attachments `connect` replays onto a fresh transport
(`socket.ts` lines 45-50): every callback of every registry entry. -/
def replayHandlers (l : List (String × List Nat)) : List (String × Nat) :=
  match l with
  | [] => []
  | p :: t => p.2.map (fun cb => (p.1, cb)) ++ replayHandlers t

/-- `SocketService.connect` (lines 7-51): refused without a token; a no-op
while already connected; otherwise a fresh transport is created and every
registry entry is reattached to it.  (The four logging-only lifecycle
handlers the source also attaches carry no transcript-visible effect and
are omitted.) -/
def SocketServiceState.connect (s : SocketServiceState) (token : Bool) : SocketServiceState :=
  if !token then s
  else if (match s.socket with | some sk => sk.connected | none => false) then s
  else { s with socket := some { connected := true, handlers := replayHandlers s.listeners } }

/-- `SocketService.disconnect` (lines 53-59): drops the transport
(`this.socket = null`); the listener registry is untouched. -/
def SocketServiceState.disconnect (s : SocketServiceState) : SocketServiceState :=
  match s.socket with
  | some _ => { s with socket := none }
  | none => s

/-- `SocketService.on` (lines 61-77): store the callback in the registry,
and attach it to the transport immediately when one exists.  The transport
attach is unconditional at the EventEmitter level, so a callback already
attached gets attached again. -/
def SocketServiceState.on (s : SocketServiceState) (event : String) (cb : Nat) : SocketServiceState :=
  { socket :=
      match s.socket with
      | some sk => some { sk with handlers := sk.handlers ++ [(event, cb)] }
      | none => none
    listeners := registryAdd s.listeners event cb }

/-- `SocketService.off` (lines 79-82): delete from the registry set and
unregister one matching attachment from the transport when one exists. -/
def SocketServiceState.off (s : SocketServiceState) (event : String) (cb : Nat) : SocketServiceState :=
  { socket :=
      match s.socket with
      | some sk =>
          some { sk with
                 handlers := removeFirst (fun h => h.1 == event && h.2 == cb) sk.handlers }
      | none => none
    listeners := registryRemove s.listeners event cb }

/-- Whether `SocketService.emit` (lines 84-90) forwards an outbound event:
only while a connected transport exists; otherwise the emission is
dropped with a console warning. -/
def SocketServiceState.emitForwards (s : SocketServiceState) : Bool :=
  match s.socket with
  | some sk => sk.connected
  | none => false

/-- Delivering one inbound event: the transport invokes, in attachment
order, every callback attached under that event name; without a transport
nothing is invoked.  Returns the invocation list. -/
def SocketServiceState.deliver (s : SocketServiceState) (event : String) : List Nat :=
  match s.socket with
  | some sk => (sk.handlers.filter (fun h => h.1 == event)).map (fun h => h.2)
  | none => []

/-- Decimal value of a digit-character list (most significant first);
inverse of `Nat.repr`, used to show correlation ids derived from
distinct timestamps are distinct. -/
def digitsVal (l : List Char) : Nat :=
  l.foldl (fun a c => 10 * a + (c.toNat - 48)) 0

/-! ## Helper lemmas -/

theorem findIdx?_eq_none_iff_any_eq_false {α : Type} (p : α → Bool) (l : List α) :
    l.findIdx? p = none ↔ l.any p = false := by
  induction l with
  | nil => simp
  | cons a as ih =>
      rw [List.findIdx?_cons]
      cases hpa : p a with
      | true => simp [hpa]
      | false => simp [hpa, List.findIdx?_succ, ih]

theorem set_findIdx?_eq_replaceFirst {α : Type} (p : α → Bool) (x : α)
    (l : List α) (i : Nat) (h : l.findIdx? p = some i) :
    l.set i x = replaceFirst p x l := by
  induction l generalizing i with
  | nil => simp [List.findIdx?] at h
  | cons a as ih =>
      rw [List.findIdx?_cons] at h
      cases hpa : p a with
      | true =>
          rw [hpa] at h
          simp only [if_true] at h
          cases h
          simp [replaceFirst, hpa]
      | false =>
          rw [hpa] at h
          simp only [Bool.false_eq_true, if_false, List.findIdx?_succ,
            Option.map_eq_some'] at h
          obtain ⟨j, hj, hij⟩ := h
          subst hij
          simp [replaceFirst, hpa, ih j hj]

theorem onGroupMessage_eq_specDeliver (activeGroupId : String)
    (prev : List GroupMessage) (d : GroupMessageEvent) :
    onGroupMessage activeGroupId prev d =
      specDeliver GroupMessage.id (d.groupId == activeGroupId) d.clientId d.id
        (groupEventMessage d) prev := by
  unfold onGroupMessage specDeliver groupDedupAppend
  cases hmatch : (d.groupId == activeGroupId) with
  | false => simp
  | true =>
      simp only [if_true]
      cases htr : truthy d.clientId with
      | false => simp [htr]
      | true =>
          cases hf : prev.findIdx? (fun m => m.id == "temp_" ++ corrOf d.clientId) with
          | some i =>
              have hany : prev.any (fun m => m.id == "temp_" ++ corrOf d.clientId) = true := by
                cases hh : prev.any (fun m => m.id == "temp_" ++ corrOf d.clientId) with
                | true => rfl
                | false =>
                    rw [(findIdx?_eq_none_iff_any_eq_false _ _).mpr hh] at hf
                    cases hf
              simp [htr, hany, set_findIdx?_eq_replaceFirst _ _ _ _ hf]
          | none =>
              have hany := (findIdx?_eq_none_iff_any_eq_false _ _).mp hf
              simp [htr, hany]

theorem onReceiveAnonymousMessage_eq_specDeliver (roomId anonymousName : String)
    (prev : List AnonymousMessage) (d : AnonymousMessageEvent) :
    onReceiveAnonymousMessage roomId anonymousName prev d =
      specDeliver AnonymousMessage.id (d.roomId == roomId) d.clientId d.id
        (anonEventMessage anonymousName d) prev := by
  unfold onReceiveAnonymousMessage specDeliver anonDedupAppend
  cases hmatch : (d.roomId == roomId) with
  | false => simp
  | true =>
      simp only [if_true]
      cases htr : truthy d.clientId with
      | false => simp [htr]
      | true =>
          cases hf : prev.findIdx? (fun m => m.id == "temp_" ++ corrOf d.clientId) with
          | some i =>
              have hany : prev.any (fun m => m.id == "temp_" ++ corrOf d.clientId) = true := by
                cases hh : prev.any (fun m => m.id == "temp_" ++ corrOf d.clientId) with
                | true => rfl
                | false =>
                    rw [(findIdx?_eq_none_iff_any_eq_false _ _).mpr hh] at hf
                    cases hf
              simp [htr, hany, set_findIdx?_eq_replaceFirst _ _ _ _ hf]
          | none =>
              have hany := (findIdx?_eq_none_iff_any_eq_false _ _).mp hf
              simp [htr, hany]

theorem any_eq_false_iff_countP_eq_zero {α : Type} (p : α → Bool) (l : List α) :
    l.any p = false ↔ l.countP p = 0 := by
  induction l with
  | nil => simp
  | cons a as ih =>
      cases hpa : p a with
      | true => simp [List.countP_cons, hpa]
      | false => simp [List.countP_cons, hpa, ih]

theorem replaceFirst_of_any_eq_false {α : Type} (p : α → Bool) (x : α)
    (l : List α) (h : l.any p = false) : replaceFirst p x l = l := by
  induction l with
  | nil => rfl
  | cons a as ih =>
      simp only [List.any_cons, Bool.or_eq_false_iff] at h
      simp [replaceFirst, h.1, ih h.2]

theorem replaceFirst_cons_of_pos {α : Type} (p : α → Bool) (x a : α)
    (l : List α) (h : p a = true) : replaceFirst p x (a :: l) = x :: l := by
  simp [replaceFirst, h]

theorem replaceFirst_append_of_any_eq_false {α : Type} (p : α → Bool) (x : α)
    (l1 l2 : List α) (h : l1.any p = false) :
    replaceFirst p x (l1 ++ l2) = l1 ++ replaceFirst p x l2 := by
  induction l1 with
  | nil => rfl
  | cons a as ih =>
      simp only [List.any_cons, Bool.or_eq_false_iff] at h
      simp [replaceFirst, h.1, ih h.2]

theorem exists_decomp_of_any_eq_true {α : Type} (p : α → Bool) (l : List α)
    (h : l.any p = true) :
    ∃ l1 a l2, l = l1 ++ a :: l2 ∧ p a = true ∧ l1.any p = false := by
  induction l with
  | nil => simp at h
  | cons b t ih =>
      cases hpb : p b with
      | true => exact ⟨[], b, t, rfl, hpb, rfl⟩
      | false =>
          simp only [List.any_cons, hpb, Bool.false_or] at h
          obtain ⟨l1, a, l2, hl, hpa, hl1⟩ := ih h
          exact ⟨b :: l1, a, l2, by rw [hl]; rfl, hpa, by simp [hpb, hl1]⟩


/-- Delivering the same message event twice through the spec-shaped
handler leaves exactly one entry with the event's server id, provided the
transcript started with no entry carrying that server id and at most one
optimistic entry matching the event's correlation key. -/
theorem specDeliver_twice_countP {M : Type} (getId : M → String)
    (clientId : Option String) (serverId : String) (confirmed : M)
    (prev : List M)
    (hconf : getId confirmed = serverId)
    (h0 : prev.countP (fun m => getId m == serverId) = 0)
    (h1 : prev.countP (fun m => getId m == "temp_" ++ corrOf clientId) ≤ 1) :
    ((specDeliver getId true clientId serverId confirmed
        (specDeliver getId true clientId serverId confirmed prev)).countP
      (fun m => getId m == serverId)) = 1 := by
  have hpconf : (getId confirmed == serverId) = true := by simp [hconf]
  by_cases hcase :
      (truthy clientId
        && prev.any (fun m => getId m == "temp_" ++ corrOf clientId)) = true
  · obtain ⟨htr, hq⟩ := Bool.and_eq_true_iff.mp hcase
    obtain ⟨l1, a, l2, hl, hpa, hl1⟩ := exists_decomp_of_any_eq_true _ _ hq
    subst hl
    cases has : (getId a == serverId) with
    | true =>
        exfalso
        rw [List.countP_append, List.countP_cons, has, if_pos rfl] at h0
        omega
    | false =>
        rw [List.countP_append, List.countP_cons, has,
          if_neg Bool.false_ne_true] at h0
        rw [List.countP_append, List.countP_cons, hpa, if_pos rfl] at h1
        have hsl1 : List.countP (fun m => getId m == serverId) l1 = 0 := by omega
        have hsl2 : List.countP (fun m => getId m == serverId) l2 = 0 := by omega
        have hql2 : List.countP (fun m => getId m == "temp_" ++ corrOf clientId) l2 = 0 := by
          omega
        have hanyql2 : l2.any (fun m => getId m == "temp_" ++ corrOf clientId) = false :=
          (any_eq_false_iff_countP_eq_zero _ _).mpr hql2
        have hr1 : specDeliver getId true clientId serverId confirmed (l1 ++ a :: l2)
            = l1 ++ confirmed :: l2 := by
          rw [specDeliver, if_pos rfl, if_pos hcase,
            replaceFirst_append_of_any_eq_false
              (fun m => getId m == "temp_" ++ corrOf clientId) confirmed l1 (a :: l2) hl1,
            replaceFirst_cons_of_pos
              (fun m => getId m == "temp_" ++ corrOf clientId) confirmed a l2 hpa]
        rw [hr1]
        have hcount1 : (l1 ++ confirmed :: l2).countP (fun m => getId m == serverId) = 1 := by
          rw [List.countP_append, List.countP_cons, hpconf, if_pos rfl]
          omega
        have hanyq : (l1 ++ confirmed :: l2).any
            (fun m => getId m == "temp_" ++ corrOf clientId)
            = (getId confirmed == "temp_" ++ corrOf clientId) := by
          rw [List.any_append, List.any_cons, hl1, hanyql2]
          simp
        cases hqc : (getId confirmed == "temp_" ++ corrOf clientId) with
        | true =>
            have hcond : (truthy clientId && (l1 ++ confirmed :: l2).any
                (fun m => getId m == "temp_" ++ corrOf clientId)) = true := by
              rw [hanyq, hqc, htr]
              rfl
            rw [specDeliver, if_pos rfl, if_pos hcond,
              replaceFirst_append_of_any_eq_false
                (fun m => getId m == "temp_" ++ corrOf clientId) confirmed l1
                (confirmed :: l2) hl1,
              replaceFirst_cons_of_pos
                (fun m => getId m == "temp_" ++ corrOf clientId) confirmed confirmed l2 hqc]
            exact hcount1
        | false =>
            have hcond : (truthy clientId && (l1 ++ confirmed :: l2).any
                (fun m => getId m == "temp_" ++ corrOf clientId)) = false := by
              rw [hanyq, hqc, Bool.and_false]
            have hdup : (l1 ++ confirmed :: l2).any (fun m => getId m == serverId) = true := by
              rw [List.any_append, List.any_cons, hpconf]
              simp
            rw [specDeliver, if_pos rfl, hcond, if_neg Bool.false_ne_true, if_pos hdup]
            exact hcount1
  · have hanys : prev.any (fun m => getId m == serverId) = false :=
      (any_eq_false_iff_countP_eq_zero _ _).mpr h0
    have hr1 : specDeliver getId true clientId serverId confirmed prev
        = prev ++ [confirmed] := by
      rw [specDeliver, if_pos rfl, eq_false_of_ne_true hcase,
        if_neg Bool.false_ne_true, hanys, if_neg Bool.false_ne_true]
    rw [hr1]
    have hcount1 : (prev ++ [confirmed]).countP (fun m => getId m == serverId) = 1 := by
      rw [List.countP_append, h0, List.countP_cons, hpconf, if_pos rfl]
      simp
    have hdup : (prev ++ [confirmed]).any (fun m => getId m == serverId) = true := by
      rw [List.any_append, List.any_cons, hpconf]
      simp
    cases htr : truthy clientId with
    | false =>
        rw [specDeliver, if_pos rfl, htr, Bool.false_and,
          if_neg Bool.false_ne_true, if_pos hdup]
        exact hcount1
    | true =>
        have hqprev : prev.any (fun m => getId m == "temp_" ++ corrOf clientId) = false := by
          cases hh : prev.any (fun m => getId m == "temp_" ++ corrOf clientId) with
          | false => rfl
          | true => exact absurd (by rw [htr, hh]; rfl) hcase
        have hanyq : (prev ++ [confirmed]).any
            (fun m => getId m == "temp_" ++ corrOf clientId)
            = (getId confirmed == "temp_" ++ corrOf clientId) := by
          rw [List.any_append, hqprev, List.any_cons, List.any_nil]
          simp
        cases hqc : (getId confirmed == "temp_" ++ corrOf clientId) with
        | true =>
            have hcond : (truthy clientId && (prev ++ [confirmed]).any
                (fun m => getId m == "temp_" ++ corrOf clientId)) = true := by
              rw [hanyq, hqc, htr]
              rfl
            rw [specDeliver, if_pos rfl, if_pos hcond,
              replaceFirst_append_of_any_eq_false
                (fun m => getId m == "temp_" ++ corrOf clientId) confirmed prev
                [confirmed] hqprev,
              replaceFirst_cons_of_pos
                (fun m => getId m == "temp_" ++ corrOf clientId) confirmed confirmed [] hqc]
            exact hcount1
        | false =>
            have hcond : (truthy clientId && (prev ++ [confirmed]).any
                (fun m => getId m == "temp_" ++ corrOf clientId)) = false := by
              rw [hanyq, hqc, Bool.and_false]
            rw [specDeliver, if_pos rfl, hcond, if_neg Bool.false_ne_true, if_pos hdup]
            exact hcount1

/-! ## Claim theorems -/

/-- Claim C1: for every push event delivered to the active conversation's
message handler (the group `group-message` listener and the anonymous
`receive-anonymous-message` listener), the handler follows the spec's
order: an event for another conversation is ignored; else, when the event
carries a client-correlation id and an optimistic entry with id equal to
the reserved prefix plus that id exists, that entry is replaced in place
by the confirmed message (which carries the server id and the
server-supplied timestamp); else an event whose server id already exists
is ignored; else the confirmed message is appended.  Stated as equality
with `specDeliver`, whose branches are the spec's ordered steps, plus the
id/timestamp facts about the confirmed messages. -/
theorem c1_remote_event_order :
    (∀ (activeGroupId : String) (prev : List GroupMessage) (d : GroupMessageEvent),
        onGroupMessage activeGroupId prev d =
          specDeliver GroupMessage.id (d.groupId == activeGroupId) d.clientId d.id
            (groupEventMessage d) prev)
    ∧ (∀ (roomId anonymousName : String) (prev : List AnonymousMessage)
        (d : AnonymousMessageEvent),
        onReceiveAnonymousMessage roomId anonymousName prev d =
          specDeliver AnonymousMessage.id (d.roomId == roomId) d.clientId d.id
            (anonEventMessage anonymousName d) prev)
    ∧ (∀ d : GroupMessageEvent,
        (groupEventMessage d).id = d.id ∧ (groupEventMessage d).createdAt = d.timestamp)
    ∧ (∀ (anonymousName : String) (d : AnonymousMessageEvent),
        (anonEventMessage anonymousName d).id = d.id
          ∧ (anonEventMessage anonymousName d).createdAt = d.createdAt) :=
  ⟨onGroupMessage_eq_specDeliver, onReceiveAnonymousMessage_eq_specDeliver,
    fun _ => ⟨rfl, rfl⟩, fun _ _ => ⟨rfl, rfl⟩⟩

/-- Claim C2 counterexample: in the direct conversation kind the
`receive-message` handler performs no duplicate check, so delivering the
same server-id-bearing event twice leaves two messages with that server id
in the transcript — not exactly one as the claim states. -/
theorem c2_direct_duplicate_delivery :
    ((onReceiveMessage ("f1") ("u1")
        (onReceiveMessage ("f1") ("u1") []
          { id := "s9", senderId := "f1", content := "hey", timestamp := "t1" })
        { id := "s9", senderId := "f1", content := "hey", timestamp := "t1" }).countP
      (fun m => m._id == "s9")) = 2
    ∧ ¬(((onReceiveMessage ("f1") ("u1")
        (onReceiveMessage ("f1") ("u1") []
          { id := "s9", senderId := "f1", content := "hey", timestamp := "t1" })
        { id := "s9", senderId := "f1", content := "hey", timestamp := "t1" }).countP
      (fun m => m._id == "s9")) = 1) := by
  decide

/-- Claim C2 (amended): for the group and anonymous conversation kinds,
delivering the same server-id-bearing event twice to the remote-event
handler leaves exactly one message with that server id, provided the event
addresses the active conversation, no entry with that server id was
already present, and at most one optimistic entry matches the event's
correlation key.  (The direct kind deduplicates nothing; see the
counterexample.) -/
theorem c2_amended_idempotent_delivery :
    (∀ (activeGroupId : String) (prev : List GroupMessage) (d : GroupMessageEvent),
        d.groupId = activeGroupId →
        prev.countP (fun m => m.id == d.id) = 0 →
        prev.countP (fun m => m.id == "temp_" ++ corrOf d.clientId) ≤ 1 →
        ((onGroupMessage activeGroupId (onGroupMessage activeGroupId prev d) d).countP
          (fun m => m.id == d.id)) = 1)
    ∧ (∀ (roomId anonymousName : String) (prev : List AnonymousMessage)
        (d : AnonymousMessageEvent),
        d.roomId = roomId →
        prev.countP (fun m => m.id == d.id) = 0 →
        prev.countP (fun m => m.id == "temp_" ++ corrOf d.clientId) ≤ 1 →
        ((onReceiveAnonymousMessage roomId anonymousName
            (onReceiveAnonymousMessage roomId anonymousName prev d) d).countP
          (fun m => m.id == d.id)) = 1) := by
  constructor
  · intro activeGroupId prev d hmatch h0 h1
    have hb : (d.groupId == activeGroupId) = true := by simp [hmatch]
    rw [onGroupMessage_eq_specDeliver, onGroupMessage_eq_specDeliver, hb]
    exact specDeliver_twice_countP GroupMessage.id d.clientId d.id
      (groupEventMessage d) prev rfl h0 h1
  · intro roomId anonymousName prev d hmatch h0 h1
    have hb : (d.roomId == roomId) = true := by simp [hmatch]
    rw [onReceiveAnonymousMessage_eq_specDeliver,
      onReceiveAnonymousMessage_eq_specDeliver, hb]
    exact specDeliver_twice_countP AnonymousMessage.id d.clientId d.id
      (anonEventMessage anonymousName d) prev rfl h0 h1

/-- Concrete instance of the amended C2 theorem: one optimistic entry,
its confirmation delivered twice, exactly one message with the server id
remains. -/
theorem c2_amended_idempotent_delivery_witness :
    ((onGroupMessage ("g1")
        (onGroupMessage ("g1")
          [{ id := "temp_7", groupId := "g1",
             sender := { _id := "u1", name := "U", email := "" },
             content := "hi", isSystemMessage := false, createdAt := "t0" }]
          { id := "s1", groupId := "g1", senderId := "u1", senderName := "U",
            content := "hi", isSystemMessage := false, timestamp := "t1",
            clientId := some "7" })
        { id := "s1", groupId := "g1", senderId := "u1", senderName := "U",
          content := "hi", isSystemMessage := false, timestamp := "t1",
          clientId := some "7" }).countP
      (fun m => m.id == "s1")) = 1 :=
  c2_amended_idempotent_delivery.1 ("g1")
    [{ id := "temp_7", groupId := "g1",
       sender := { _id := "u1", name := "U", email := "" },
       content := "hi", isSystemMessage := false, createdAt := "t0" }]
    { id := "s1", groupId := "g1", senderId := "u1", senderName := "U",
      content := "hi", isSystemMessage := false, timestamp := "t1",
      clientId := some "7" }
    rfl (by decide) (by decide)

/-- Claim C3 counterexample: the anonymous-room send has no failure path.
With the transport disconnected the emission is silently dropped — the
send has failed — yet the optimistic entry stays in the transcript and
no `SendFailed` condition is signalled, contradicting the claim for the
anonymous conversation kind.  (The direct-chat send behaves the same
way; only the group send rolls back.) -/
theorem c3_anonymous_no_rollback :
    handleSendMessageAnon ("room1") ("bunny") ("hi") 100 ("t0") false []
      = ([anonTempMsg ("bunny") ("hi") ("100") ("t0")], none, false)
    ∧ ((handleSendMessageAnon ("room1") ("bunny") ("hi") 100 ("t0") false []).1.countP
        (fun m => m.id == "temp_" ++ ("100"))) = 1 := by
  decide

/-- Claim C3 (amended): only the group-chat send performs failure
handling: on gateway failure it removes every optimistic entry carrying
that send's correlation key and signals the failure to the caller, and on
success it changes nothing; it performs no retry (its settle stage issues
no further call).  The anonymous and direct sends go through the socket
`emit`, which silently drops the event when disconnected: they never
signal a failure, and a dropped anonymous send leaves its optimistic
entry in the transcript with no gateway call recorded. -/
theorem c3_amended_rollback :
    (∀ (clientId : String) (cur : List GroupMessage),
        ((handleSendMessageGroupSettle clientId false cur).1.countP
          (fun m => m.id == "temp_" ++ clientId)) = 0
        ∧ (handleSendMessageGroupSettle clientId false cur).2 = true)
    ∧ (∀ (clientId : String) (cur : List GroupMessage),
        handleSendMessageGroupSettle clientId true cur = (cur, false))
    ∧ (∀ (roomId anonymousName newMessage : String) (now : Nat) (nowIso : String)
        (connected : Bool) (prev : List AnonymousMessage),
        (handleSendMessageAnon roomId anonymousName newMessage now nowIso connected prev).2.2
          = false)
    ∧ (∀ (friendId userId newMessage : String) (now : Nat) (nowIso : String)
        (connected : Bool) (prev : List Message),
        (handleSendMessageDirect friendId userId newMessage now nowIso connected prev).2.2
          = false)
    ∧ (∀ (roomId anonymousName newMessage : String) (now : Nat) (nowIso : String)
        (prev : List AnonymousMessage),
        (jsTrim newMessage).isEmpty = false →
        (handleSendMessageAnon roomId anonymousName newMessage now nowIso false prev).1
            = prev ++ [anonTempMsg anonymousName (jsTrim newMessage) (Nat.repr now) nowIso]
          ∧ (handleSendMessageAnon roomId anonymousName newMessage now nowIso false prev).2.1
            = none) := by
  refine ⟨?_, ?_, ?_, ?_, ?_⟩
  · intro clientId cur
    constructor
    · simp only [handleSendMessageGroupSettle, Bool.false_eq_true, if_false]
      rw [List.countP_eq_zero]
      intro a ha
      have hmem := List.mem_filter.mp ha
      have hne := (bne_iff_ne (a := a.id) (b := "temp_" ++ clientId)).mp hmem.2
      simp [hne]
    · simp [handleSendMessageGroupSettle]
  · intro clientId cur
    rfl
  · intro roomId anonymousName newMessage now nowIso connected prev
    unfold handleSendMessageAnon
    split <;> rfl
  · intro friendId userId newMessage now nowIso connected prev
    unfold handleSendMessageDirect
    split <;> rfl
  · intro roomId anonymousName newMessage now nowIso prev h
    constructor <;> simp [handleSendMessageAnon, h]

/-- Concrete instance of the amended C3 theorem: a failed group send
rolls back its optimistic entry and signals; a dropped anonymous send
keeps its entry and forwards nothing. -/
theorem c3_amended_rollback_witness :
    ((handleSendMessageGroupSettle ("7") false
        [{ id := "temp_7", groupId := "g1",
           sender := { _id := "u1", name := "U", email := "" },
           content := "hi", isSystemMessage := false, createdAt := "t0" }]).1.countP
      (fun m => m.id == "temp_" ++ ("7"))) = 0
    ∧ (handleSendMessageAnon ("r1") ("bun") (" hi ") 5 ("t0") false []).1
        = [] ++ [anonTempMsg ("bun") (jsTrim (" hi ")) (Nat.repr 5) ("t0")] :=
  ⟨(c3_amended_rollback.1 ("7")
      [{ id := "temp_7", groupId := "g1",
         sender := { _id := "u1", name := "U", email := "" },
         content := "hi", isSystemMessage := false, createdAt := "t0" }]).1,
   ((c3_amended_rollback.2.2.2.2 ("r1") ("bun") (" hi ") 5 ("t0") []) (by decide)).1⟩

/-- Claim C4: the source's `loadMessages` resolution installs the response
unconditionally — it carries no requested-for tag check — so a history
load for conversation A that resolves after the user switched to B
overwrites B's transcript with A's history.  The spec-required behaviour
(`loadMessagesApplySpec`, which discards mismatched results) keeps B's
transcript; the two disagree on this input, exhibiting the bug. -/
theorem c4_stale_load_overwrites :
    (loadMessagesApply
        (switchConversation { activeGroupId := "A", messages := [] } ("B")) ("A")
        [{ id := "a1", groupId := "A",
           sender := { _id := "u9", name := "N", email := "" },
           content := "old A message", isSystemMessage := false, createdAt := "t0" }]).messages
      = [{ id := "a1", groupId := "A",
           sender := { _id := "u9", name := "N", email := "" },
           content := "old A message", isSystemMessage := false, createdAt := "t0" }]
    ∧ (loadMessagesApply
        (switchConversation { activeGroupId := "A", messages := [] } ("B")) ("A")
        [{ id := "a1", groupId := "A",
           sender := { _id := "u9", name := "N", email := "" },
           content := "old A message", isSystemMessage := false, createdAt := "t0" }]).activeGroupId
      = "B"
    ∧ (loadMessagesApplySpec
        (switchConversation { activeGroupId := "A", messages := [] } ("B")) ("A")
        [{ id := "a1", groupId := "A",
           sender := { _id := "u9", name := "N", email := "" },
           content := "old A message", isSystemMessage := false, createdAt := "t0" }]).messages
      = []
    ∧ (loadMessagesApply
        (switchConversation { activeGroupId := "A", messages := [] } ("B")) ("A")
        [{ id := "a1", groupId := "A",
           sender := { _id := "u9", name := "N", email := "" },
           content := "old A message", isSystemMessage := false, createdAt := "t0" }]).messages
      ≠ (loadMessagesApplySpec
        (switchConversation { activeGroupId := "A", messages := [] } ("B")) ("A")
        [{ id := "a1", groupId := "A",
           sender := { _id := "u9", name := "N", email := "" },
           content := "old A message", isSystemMessage := false, createdAt := "t0" }]).messages := by
  decide

/-- Claim C8: a send whose trimmed input is empty leaves the transcript
unchanged and performs no network operation; a send with non-empty
trimmed content appends exactly one optimistic entry synchronously (the
start stage, before any network response exists) and issues the request.
Stated for the group and anonymous sends, the two the claim cites. -/
theorem c8_send_trim_guard :
    (∀ (groupId userId userName newMessage : String) (now : Nat) (nowIso : String)
        (prev : List GroupMessage),
        ((jsTrim newMessage).isEmpty = true →
          handleSendMessageGroupStart groupId userId userName newMessage now nowIso prev
            = (prev, none))
        ∧ ((jsTrim newMessage).isEmpty = false →
          handleSendMessageGroupStart groupId userId userName newMessage now nowIso prev
            = (prev ++ [groupTempMsg groupId userId userName (jsTrim newMessage)
                          (Nat.repr now) nowIso],
               some { groupId := groupId, content := jsTrim newMessage,
                      clientId := Nat.repr now })))
    ∧ (∀ (roomId anonymousName newMessage : String) (now : Nat) (nowIso : String)
        (connected : Bool) (prev : List AnonymousMessage),
        ((jsTrim newMessage).isEmpty = true →
          handleSendMessageAnon roomId anonymousName newMessage now nowIso connected prev
            = (prev, none, false))
        ∧ ((jsTrim newMessage).isEmpty = false →
          (handleSendMessageAnon roomId anonymousName newMessage now nowIso connected prev).1
            = prev ++ [anonTempMsg anonymousName (jsTrim newMessage) (Nat.repr now) nowIso])) := by
  constructor
  · intro groupId userId userName newMessage now nowIso prev
    constructor
    · intro h
      simp [handleSendMessageGroupStart, h]
    · intro h
      simp [handleSendMessageGroupStart, h]
  · intro roomId anonymousName newMessage now nowIso connected prev
    constructor
    · intro h
      simp [handleSendMessageAnon, h]
    · intro h
      simp [handleSendMessageAnon, h]

/-- Concrete instance of C8: a whitespace-only group send is a complete
no-op, and a padded input is trimmed and appended exactly once. -/
theorem c8_send_trim_guard_witness :
    handleSendMessageGroupStart ("g1") ("u1") ("U") ("   ") 5 ("t0") [] = ([], none)
    ∧ handleSendMessageGroupStart ("g1") ("u1") ("U") (" hi ") 5 ("t0") []
        = ([] ++ [groupTempMsg ("g1") ("u1") ("U") (jsTrim (" hi ")) (Nat.repr 5) ("t0")],
           some { groupId := "g1", content := jsTrim (" hi "), clientId := Nat.repr 5 }) :=
  ⟨(c8_send_trim_guard.1 ("g1") ("u1") ("U") ("   ") 5 ("t0") []).1 (by decide),
   (c8_send_trim_guard.1 ("g1") ("u1") ("U") (" hi ") 5 ("t0") []).2 (by decide)⟩

/-- Claim C10: the group-send rollback is frame-exact — the surviving
transcript is a sublist of the old one (so the relative order of the
remaining messages is unchanged), every removed entry carried the id
`temp_` + the send's correlation id, every other entry survives, and for
entries without that id even the multiplicity is unchanged. -/
theorem c10_rollback_frame (clientId : String) (cur : List GroupMessage) :
    ((handleSendMessageGroupSettle clientId false cur).1).Sublist cur
    ∧ (∀ m ∈ (handleSendMessageGroupSettle clientId false cur).1,
        m.id ≠ "temp_" ++ clientId)
    ∧ (∀ m ∈ cur, m.id ≠ "temp_" ++ clientId →
        m ∈ (handleSendMessageGroupSettle clientId false cur).1)
    ∧ (∀ m : GroupMessage, m.id ≠ "temp_" ++ clientId →
        ((handleSendMessageGroupSettle clientId false cur).1).count m = cur.count m) := by
  simp only [handleSendMessageGroupSettle, Bool.false_eq_true, if_false]
  refine ⟨List.filter_sublist _, ?_, ?_, ?_⟩
  · intro m hm
    exact (bne_iff_ne (a := m.id) (b := "temp_" ++ clientId)).mp (List.mem_filter.mp hm).2
  · intro m hm hne
    exact List.mem_filter.mpr ⟨hm, (bne_iff_ne (a := m.id) (b := "temp_" ++ clientId)).mpr hne⟩
  · intro m hne
    exact List.count_filter ((bne_iff_ne (a := m.id) (b := "temp_" ++ clientId)).mpr hne)

/-- Concrete instance of C10: rolling back correlation id 7 removes the
`temp_7` entry and leaves the confirmed `s1` entry with its count
unchanged. -/
theorem c10_rollback_frame_witness :
    ((handleSendMessageGroupSettle ("7") false
        [{ id := "temp_7", groupId := "g1",
           sender := { _id := "u1", name := "U", email := "" },
           content := "hi", isSystemMessage := false, createdAt := "t0" },
         { id := "s1", groupId := "g1",
           sender := { _id := "u2", name := "V", email := "" },
           content := "yo", isSystemMessage := false, createdAt := "t1" }]).1).count
      { id := "s1", groupId := "g1",
        sender := { _id := "u2", name := "V", email := "" },
        content := "yo", isSystemMessage := false, createdAt := "t1" }
    = ([{ id := "temp_7", groupId := "g1",
          sender := { _id := "u1", name := "U", email := "" },
          content := "hi", isSystemMessage := false, createdAt := "t0" },
        { id := "s1", groupId := "g1",
          sender := { _id := "u2", name := "V", email := "" },
          content := "yo", isSystemMessage := false, createdAt := "t1" }] :
          List GroupMessage).count
      ({ id := "s1", groupId := "g1",
         sender := { _id := "u2", name := "V", email := "" },
         content := "yo", isSystemMessage := false, createdAt := "t1" } : GroupMessage) :=
  (c10_rollback_frame ("7")
    [{ id := "temp_7", groupId := "g1",
       sender := { _id := "u1", name := "U", email := "" },
       content := "hi", isSystemMessage := false, createdAt := "t0" },
     { id := "s1", groupId := "g1",
       sender := { _id := "u2", name := "V", email := "" },
       content := "yo", isSystemMessage := false, createdAt := "t1" }]).2.2.2
    { id := "s1", groupId := "g1",
      sender := { _id := "u2", name := "V", email := "" },
      content := "yo", isSystemMessage := false, createdAt := "t1" }
    (by decide)

theorem digitChar_val (m : Nat) (h : m < 10) : (Nat.digitChar m).toNat - 48 = m := by
  interval_cases m <;> decide

theorem digitChar_range (m : Nat) (h : m < 10) :
    47 < (Nat.digitChar m).toNat ∧ (Nat.digitChar m).toNat < 58 := by
  interval_cases m <;> exact ⟨by decide, by decide⟩

theorem toDigitsCore_foldl (f : Nat) : ∀ (n : Nat) (ds : List Char), n < f →
    (Nat.toDigitsCore 10 f n ds).foldl (fun a c => 10 * a + (c.toNat - 48)) 0
      = ds.foldl (fun a c => 10 * a + (c.toNat - 48)) n := by
  induction f with
  | zero => intro n ds h; omega
  | succ f ih =>
      intro n ds h
      rw [Nat.toDigitsCore]
      by_cases h0 : n / 10 = 0
      · rw [if_pos h0]
        have hn : n < 10 := by omega
        have hmod : n % 10 = n := Nat.mod_eq_of_lt hn
        simp only [List.foldl_cons]
        rw [digitChar_val (n % 10) (Nat.mod_lt _ (by omega)), Nat.mul_zero,
          Nat.zero_add, hmod]
      · rw [if_neg h0]
        have hlt : n / 10 < f := by
          have h1 : 0 < n := by
            by_contra hz
            have : n = 0 := by omega
            subst this
            simp at h0
          have := Nat.div_lt_self h1 (by omega : 1 < 10)
          omega
        rw [ih (n / 10) ((n % 10).digitChar :: ds) hlt]
        simp only [List.foldl_cons]
        rw [digitChar_val (n % 10) (Nat.mod_lt _ (by omega))]
        have : 10 * (n / 10) + n % 10 = n := Nat.div_add_mod n 10
        rw [this]

theorem digitsVal_repr (n : Nat) : digitsVal (Nat.repr n).data = n := by
  have h := toDigitsCore_foldl (n + 1) n [] (Nat.lt_succ_self n)
  simpa [digitsVal, Nat.repr, Nat.toDigits, List.asString] using h

theorem nat_repr_injective (m n : Nat) (h : Nat.repr m = Nat.repr n) : m = n := by
  rw [← digitsVal_repr m, h, digitsVal_repr n]

theorem toDigitsCore_chars (f : Nat) : ∀ (n : Nat) (ds : List Char),
    (∀ c ∈ ds, 47 < c.toNat ∧ c.toNat < 58) →
    ∀ c ∈ Nat.toDigitsCore 10 f n ds, 47 < c.toNat ∧ c.toNat < 58 := by
  induction f with
  | zero => intro n ds hds c hc; exact hds c hc
  | succ f ih =>
      intro n ds hds c hc
      rw [Nat.toDigitsCore] at hc
      have hd : ∀ x ∈ (n % 10).digitChar :: ds, 47 < x.toNat ∧ x.toNat < 58 := by
        intro x hx
        rcases List.mem_cons.mp hx with hx | hx
        · subst hx
          exact digitChar_range (n % 10) (Nat.mod_lt _ (by omega))
        · exact hds x hx
      by_cases h0 : n / 10 = 0
      · rw [if_pos h0] at hc
        exact hd c hc
      · rw [if_neg h0] at hc
        exact ih (n / 10) ((n % 10).digitChar :: ds) hd c hc

theorem repr_chars (n : Nat) : ∀ c ∈ (Nat.repr n).data, 47 < c.toNat ∧ c.toNat < 58 := by
  intro c hc
  have : (Nat.repr n).data = Nat.toDigitsCore 10 (n + 1) n [] := rfl
  rw [this] at hc
  exact toDigitsCore_chars (n + 1) n [] (by intro x hx; simp at hx) c hc

theorem temp_not_prefix_of_repr (n : Nat) :
    ("temp_").data.isPrefixOf (Nat.repr n).data = false := by
  cases h : ("temp_").data.isPrefixOf (Nat.repr n).data with
  | false => rfl
  | true =>
      exfalso
      obtain ⟨t, ht⟩ := List.isPrefixOf_iff_prefix.mp h
      have hmem : 't' ∈ (Nat.repr n).data := by
        rw [← ht]
        exact List.mem_append_left t (by decide)
      have h58 := (repr_chars n 't' hmem).2
      have : ('t').toNat = 116 := by decide
      omega

theorem temp_prefix_of_append (s : String) :
    ("temp_").data.isPrefixOf (("temp_" ++ s)).data = true := by
  rw [String.data_append]
  exact List.isPrefixOf_iff_prefix.mpr (List.prefix_append _ _)

/-- Claim C6 counterexample: the direct-chat optimistic entry's id is the
bare `Date.now().toString()` token with no reserved prefix — and it can
coincide with a server-assigned id (server ids are arbitrary strings to
this client), refuting the claim for the direct conversation kind. -/
theorem c6_direct_temp_id_unprefixed :
    (directTempMsg ("u1") ("f1") ("hello") ("t0") 4242)._id = "4242"
    ∧ ("temp_").data.isPrefixOf
        ((directTempMsg ("u1") ("f1") ("hello") ("t0") 4242)._id).data = false
    ∧ (directTempMsg ("u1") ("f1") ("hello") ("t0") 4242)._id
        = ({ id := "4242", senderId := "f1", content := "x",
             timestamp := "t9" } : ReceiveMessageEvent).id := by
  decide

/-- Claim C6 (amended): the group and anonymous optimistic ids are the
reserved prefix `temp_` plus the timestamp token, so they can never equal
an id that does not start with `temp_`; the direct-chat optimistic id is
the bare timestamp token, which never starts with `temp_` (its characters
are decimal digits) and so carries no reserved prefix at all. -/
theorem c6_amended_temp_id_format (now : Nat)
    (groupId userId userName content nowIso anonymousName friendId serverId : String)
    (hs : ("temp_").data.isPrefixOf serverId.data = false) :
    (groupTempMsg groupId userId userName content (Nat.repr now) nowIso).id
        = "temp_" ++ Nat.repr now
    ∧ ("temp_").data.isPrefixOf (("temp_" ++ Nat.repr now)).data = true
    ∧ (groupTempMsg groupId userId userName content (Nat.repr now) nowIso).id ≠ serverId
    ∧ (anonTempMsg anonymousName content (Nat.repr now) nowIso).id = "temp_" ++ Nat.repr now
    ∧ (anonTempMsg anonymousName content (Nat.repr now) nowIso).id ≠ serverId
    ∧ (directTempMsg userId friendId content nowIso now)._id = Nat.repr now
    ∧ ("temp_").data.isPrefixOf
        ((directTempMsg userId friendId content nowIso now)._id).data = false := by
  have hne : ("temp_" ++ Nat.repr now) ≠ serverId := by
    intro h
    have hp := temp_prefix_of_append (Nat.repr now)
    rw [h] at hp
    rw [hp] at hs
    simp at hs
  exact ⟨rfl, temp_prefix_of_append (Nat.repr now), hne, rfl, hne, rfl,
    temp_not_prefix_of_repr now⟩

/-- Concrete instance of the amended C6 theorem at timestamp 4242 and a
prefix-free server id. -/
theorem c6_amended_temp_id_format_witness :
    (groupTempMsg ("g1") ("u1") ("U") ("hi") (Nat.repr 4242) ("t0")).id
      ≠ ("abc99") :=
  (c6_amended_temp_id_format 4242 ("g1") ("u1") ("U") ("hi") ("t0") ("bun") ("f1")
    ("abc99") (by decide)).2.2.1

/-- Claim C7 counterexample: two distinct sends performed within the same
millisecond (`Date.now()` returns 100 for both) receive the same
correlation id `100`, and the transcript then holds two optimistic
entries with the same key `temp_100` — correlation ids are not unique per
send, and more than one optimistic entry can share a key. -/
theorem c7_same_millisecond_collision :
    ((handleSendMessageGroupStart ("g1") ("u1") ("U") ("yo") 100 ("t0")
        (handleSendMessageGroupStart ("g1") ("u1") ("U") ("hi") 100 ("t0") []).1).1.countP
      (fun m => m.id == "temp_" ++ ("100"))) = 2
    ∧ (handleSendMessageGroupStart ("g1") ("u1") ("U") ("hi") 100 ("t0") []).2
        = some { groupId := "g1", content := "hi", clientId := "100" }
    ∧ (handleSendMessageGroupStart ("g1") ("u1") ("U") ("yo") 100 ("t0")
        (handleSendMessageGroupStart ("g1") ("u1") ("U") ("hi") 100 ("t0") []).1).2
        = some { groupId := "g1", content := "yo", clientId := "100" } := by
  decide

/-- Claim C7 (amended): each send's correlation id is the decimal string
of the millisecond timestamp at send time, so two sends performed at
distinct milliseconds receive distinct correlation ids (for the group
send and the anonymous send alike); only sends within the same
millisecond collide (see the counterexample). -/
theorem c7_amended_clientId_from_timestamp
    (groupId userId userName roomId anonymousName m1 m2 : String)
    (t1 t2 : Nat) (iso1 iso2 : String)
    (prev1 prev2 : List GroupMessage) (aprev1 aprev2 : List AnonymousMessage)
    (h1 : (jsTrim m1).isEmpty = false) (h2 : (jsTrim m2).isEmpty = false)
    (hne : t1 ≠ t2) :
    (∀ c1 c2 : GroupSendCall,
        (handleSendMessageGroupStart groupId userId userName m1 t1 iso1 prev1).2 = some c1 →
        (handleSendMessageGroupStart groupId userId userName m2 t2 iso2 prev2).2 = some c2 →
        c1.clientId ≠ c2.clientId)
    ∧ (∀ e1 e2 : AnonEmitCall,
        (handleSendMessageAnon roomId anonymousName m1 t1 iso1 true aprev1).2.1 = some e1 →
        (handleSendMessageAnon roomId anonymousName m2 t2 iso2 true aprev2).2.1 = some e2 →
        e1.clientId ≠ e2.clientId) := by
  constructor
  · intro c1 c2 hc1 hc2
    simp only [handleSendMessageGroupStart, h1, Bool.false_eq_true, if_false,
      Option.some.injEq] at hc1
    simp only [handleSendMessageGroupStart, h2, Bool.false_eq_true, if_false,
      Option.some.injEq] at hc2
    rw [← hc1, ← hc2]
    intro h
    exact hne (nat_repr_injective t1 t2 h)
  · intro e1 e2 he1 he2
    simp only [handleSendMessageAnon, h1, Bool.false_eq_true, if_false, if_true,
      Option.some.injEq] at he1
    simp only [handleSendMessageAnon, h2, Bool.false_eq_true, if_false, if_true,
      Option.some.injEq] at he2
    rw [← he1, ← he2]
    intro h
    exact hne (nat_repr_injective t1 t2 h)

/-- Concrete instance of the amended C7 theorem: sends at milliseconds 1
and 2 receive the distinct correlation ids 1 and 2. -/
theorem c7_amended_clientId_from_timestamp_witness :
    ({ groupId := "g1", content := "hi", clientId := "1" } : GroupSendCall).clientId
      ≠ ({ groupId := "g1", content := "yo", clientId := "2" } : GroupSendCall).clientId :=
  (c7_amended_clientId_from_timestamp ("g1") ("u1") ("U") ("r1") ("bun") ("hi") ("yo")
      1 2 ("i1") ("i2") [] [] [] [] (by decide) (by decide) (by decide)).1
    { groupId := "g1", content := "hi", clientId := "1" }
    { groupId := "g1", content := "yo", clientId := "2" }
    (by decide) (by decide)

theorem removeFirst_of_any_eq_false {α : Type} (p : α → Bool) (l : List α)
    (h : l.any p = false) : removeFirst p l = l := by
  induction l with
  | nil => rfl
  | cons a as ih =>
      simp only [List.any_cons, Bool.or_eq_false_iff] at h
      simp [removeFirst, h.1, ih h.2]

theorem removeFirst_idem {α : Type} (p : α → Bool) (l : List α)
    (h : l.countP p ≤ 1) : removeFirst p (removeFirst p l) = removeFirst p l := by
  induction l with
  | nil => rfl
  | cons a as ih =>
      cases hpa : p a with
      | true =>
          rw [List.countP_cons, hpa, if_pos rfl] at h
          have h0 : as.countP p = 0 := by omega
          have hany : as.any p = false := (any_eq_false_iff_countP_eq_zero _ _).mpr h0
          simp [removeFirst, hpa, removeFirst_of_any_eq_false p as hany]
      | false =>
          rw [List.countP_cons, hpa, if_neg Bool.false_ne_true] at h
          simp [removeFirst, hpa, ih (by omega)]

theorem find?_append_of_none {α : Type} (p : α → Bool) (l1 l2 : List α)
    (h : l1.find? p = none) : (l1 ++ l2).find? p = l2.find? p := by
  induction l1 with
  | nil => rfl
  | cons a as ih =>
      rw [List.find?_eq_none] at h
      have hpa : ¬p a = true := h a (List.mem_cons_self a as)
      rw [List.cons_append, List.find?_cons_of_neg _ hpa]
      exact ih (List.find?_eq_none.mpr (fun x hx => h x (List.mem_cons_of_mem a hx)))

theorem find?_map_fst {β : Type} (l : List (String × β)) (g : String × β → String × β)
    (e : String) (hg : ∀ p, (g p).1 = p.1) :
    (l.map g).find? (fun p => p.1 == e) = (l.find? (fun p => p.1 == e)).map g := by
  induction l with
  | nil => rfl
  | cons a as ih =>
      cases ha : (a.1 == e) with
      | true =>
          have hga : ((g a).1 == e) = true := by rw [hg a]; exact ha
          rw [List.map_cons,
            @List.find?_cons_of_pos _ (fun p => p.1 == e) (g a) (as.map g) hga,
            @List.find?_cons_of_pos _ (fun p => p.1 == e) a as ha]
          rfl
      | false =>
          have hga : ¬((g a).1 == e) = true := by rw [hg a, ha]; exact Bool.false_ne_true
          rw [List.map_cons,
            @List.find?_cons_of_neg _ (fun p => p.1 == e) (g a) (as.map g) hga,
            @List.find?_cons_of_neg _ (fun p => p.1 == e) a as (by simp [ha]), ih]

theorem replay_filter_of_not_memKeys (l : List (String × List Nat)) (event : String)
    (h : event ∉ l.map Prod.fst) :
    (replayHandlers l).filter (fun h => h.1 == event) = [] := by
  induction l with
  | nil => rfl
  | cons a t ih =>
      obtain ⟨k, cbs⟩ := a
      simp only [List.map_cons, List.mem_cons, not_or] at h
      have hk : (k == event) = false := by
        cases hkk : (k == event) with
        | false => rfl
        | true => exact absurd (eq_of_beq hkk).symm h.1
      show ((cbs.map (fun cb => (k, cb)) ++ replayHandlers t).filter
        (fun h => h.1 == event)) = []
      rw [List.filter_append, List.filter_map, ih h.2]
      have : (cbs.filter ((fun h => h.1 == event) ∘ (fun cb => (k, cb)))) = [] := by
        have : ((fun h => h.1 == event) ∘ (fun cb : Nat => (k, cb))) = fun _ => false := by
          funext cb
          exact hk
        rw [this, List.filter_false]
      rw [this]
      rfl

theorem replay_deliver_count (l : List (String × List Nat)) (event : String) (cb : Nat)
    (hkeys : (l.map Prod.fst).Nodup) :
    ((((replayHandlers l).filter (fun h => h.1 == event)).map (fun h => h.2)).count cb)
      = (registryGet l event).count cb := by
  induction l with
  | nil => rfl
  | cons a t ih =>
      obtain ⟨k, cbs⟩ := a
      simp only [List.map_cons, List.nodup_cons] at hkeys
      show ((((cbs.map (fun cb => (k, cb)) ++ replayHandlers t).filter
          (fun h => h.1 == event)).map (fun h => h.2)).count cb)
        = (registryGet ((k, cbs) :: t) event).count cb
      rw [List.filter_append, List.filter_map]
      cases hk : (k == event) with
      | true =>
          have hke : k = event := eq_of_beq hk
          have hmem : event ∉ t.map Prod.fst := by rw [← hke]; exact hkeys.1
          have hcomp : ((fun h => h.1 == event) ∘ (fun cb : Nat => (k, cb)))
              = fun _ => true := by
            funext c
            exact hk
          have hget : registryGet ((k, cbs) :: t) event = cbs := by
            unfold registryGet
            rw [@List.find?_cons_of_pos _ (fun p => p.1 == event) (k, cbs) t hk]
          rw [hcomp, List.filter_true, replay_filter_of_not_memKeys t event hmem,
            List.append_nil, hget]
          have hid : ((cbs.map (fun cb => (k, cb))).map (fun h : String × Nat => h.2))
              = cbs := by
            simp
          rw [hid]
      | false =>
          have hcomp : ((fun h => h.1 == event) ∘ (fun cb : Nat => (k, cb)))
              = fun _ => false := by
            funext c
            exact hk
          have hget : registryGet ((k, cbs) :: t) event = registryGet t event := by
            unfold registryGet
            rw [@List.find?_cons_of_neg _ (fun p => p.1 == event) (k, cbs) t
              (by simp [hk])]
          rw [hcomp, List.filter_false, hget]
          simpa using ih hkeys.2

theorem contains_eq_false_of_count_zero (l : List Nat) (a : Nat)
    (h : l.count a = 0) : l.contains a = false := by
  have := List.count_eq_zero.mp h
  simpa using this

theorem registryAdd_eq_of_none (l : List (String × List Nat)) (e : String) (cb : Nat)
    (hf : l.find? (fun p => p.1 == e) = none) :
    registryAdd l e cb = l ++ [(e, [cb])] := by
  unfold registryAdd
  rw [hf]

theorem registryAdd_eq_of_some (l : List (String × List Nat)) (e : String) (cb : Nat)
    (q : String × List Nat) (hf : l.find? (fun p => p.1 == e) = some q) :
    registryAdd l e cb
      = l.map (fun p =>
          if p.1 == e then (p.1, if p.2.contains cb then p.2 else p.2 ++ [cb]) else p) := by
  unfold registryAdd
  rw [hf]

theorem registryAdd_fst (e : String) (cb : Nat) (p : String × List Nat) :
    ((fun p : String × List Nat =>
        if p.1 == e then (p.1, if p.2.contains cb then p.2 else p.2 ++ [cb]) else p) p).1
      = p.1 := by
  cases hp : (p.1 == e) <;> simp [hp]

theorem registryGet_registryAdd (l : List (String × List Nat)) (e : String) (cb : Nat) :
    registryGet (registryAdd l e cb) e
      = if (registryGet l e).contains cb then registryGet l e
        else registryGet l e ++ [cb] := by
  cases hf : l.find? (fun p => p.1 == e) with
  | none =>
      have hget : registryGet l e = [] := by unfold registryGet; rw [hf]
      rw [registryAdd_eq_of_none l e cb hf, hget]
      unfold registryGet
      rw [find?_append_of_none _ l [(e, [cb])] hf,
        @List.find?_cons_of_pos _ (fun p => p.1 == e) (e, [cb]) [] (by simp)]
      simp
  | some q =>
      have hq : (q.1 == e) = true := @List.find?_some _ (fun p => p.1 == e) q l hf
      have hget : registryGet l e = q.2 := by unfold registryGet; rw [hf]
      rw [registryAdd_eq_of_some l e cb q hf, hget]
      unfold registryGet
      rw [find?_map_fst l _ e (registryAdd_fst e cb), hf]
      simp [hq, eq_of_beq hq]

theorem registryAdd_nodupKeys (l : List (String × List Nat)) (e : String) (cb : Nat)
    (h : (l.map Prod.fst).Nodup) : ((registryAdd l e cb).map Prod.fst).Nodup := by
  cases hf : l.find? (fun p => p.1 == e) with
  | none =>
      rw [registryAdd_eq_of_none l e cb hf, List.map_append]
      rw [List.nodup_append]
      refine ⟨h, List.nodup_singleton _, ?_⟩
      intro a ha hb
      simp only [List.map_cons, List.map_nil, List.mem_singleton] at hb
      subst hb
      obtain ⟨p, hp, hpe⟩ := List.mem_map.mp ha
      have := List.find?_eq_none.mp hf p hp
      apply this
      simp [hpe]
  | some q =>
      rw [registryAdd_eq_of_some l e cb q hf, List.map_map]
      have : (Prod.fst ∘ (fun p : String × List Nat =>
          if p.1 == e then (p.1, if p.2.contains cb then p.2 else p.2 ++ [cb]) else p))
          = Prod.fst := by
        funext p
        exact registryAdd_fst e cb p
      rw [this]
      exact h

theorem registryGet_of_mem_nodup (e : String) (p : String × List Nat)
    (he : (p.1 == e) = true) :
    ∀ (l : List (String × List Nat)), (l.map Prod.fst).Nodup → p ∈ l →
      registryGet l e = p.2 := by
  intro l
  induction l with
  | nil => intro _ hp; cases hp
  | cons a t ih =>
      intro hkeys hp
      simp only [List.map_cons, List.nodup_cons] at hkeys
      rcases List.mem_cons.mp hp with rfl | hpt
      · unfold registryGet
        rw [@List.find?_cons_of_pos _ (fun p => p.1 == e) p t he]
      · have ha : ¬(a.1 == e) = true := by
          cases haa : (a.1 == e) with
          | false => simp
          | true =>
              exfalso
              have h1 : a.1 = e := eq_of_beq haa
              have h2 : p.1 = e := eq_of_beq he
              exact hkeys.1 (by
                rw [h1, ← h2]
                exact List.mem_map_of_mem Prod.fst hpt)
        unfold registryGet
        rw [@List.find?_cons_of_neg _ (fun p => p.1 == e) a t ha]
        exact ih hkeys.2 hpt

theorem registryRemove_of_count_zero (l : List (String × List Nat)) (e : String) (cb : Nat)
    (hkeys : (l.map Prod.fst).Nodup) (h : (registryGet l e).count cb = 0) :
    registryRemove l e cb = l := by
  unfold registryRemove
  have hcon : ∀ p ∈ l,
      (if p.1 == e then (p.1, p.2.filter (fun c => c != cb)) else p) = p := by
    intro p hp
    cases hpe : (p.1 == e) with
    | false => simp [hpe]
    | true =>
        have hget := registryGet_of_mem_nodup e p hpe l hkeys hp
        rw [hget] at h
        have hnot : cb ∉ p.2 := List.count_eq_zero.mp h
        have hfil : p.2.filter (fun c => c != cb) = p.2 := by
          rw [List.filter_eq_self]
          intro a ha
          have hne : a ≠ cb := fun hac => hnot (hac ▸ ha)
          simpa using hne
        simp [hpe, hfil]
  exact (List.map_congr_left hcon).trans (List.map_id l)

theorem registryRemove_idem (l : List (String × List Nat)) (e : String) (cb : Nat) :
    registryRemove (registryRemove l e cb) e cb = registryRemove l e cb := by
  unfold registryRemove
  rw [List.map_map]
  apply List.map_congr_left
  intro p hp
  cases hpe : (p.1 == e) with
  | false => simp [Function.comp, hpe]
  | true => simp [Function.comp, hpe, List.filter_filter, Bool.and_self]

/-- Claim C5: `disconnect()` erases no listener-registry entries, a
subsequent `connect()` leaves the registry intact and replays every entry
onto the fresh transport, and delivering one event afterwards invokes a
callback that was registered once exactly once. -/
theorem c5_listener_survival (s : SocketServiceState) (event : String) (cb : Nat)
    (hkeys : (s.listeners.map Prod.fst).Nodup)
    (hreg : (registryGet s.listeners event).count cb = 1) :
    s.disconnect.listeners = s.listeners
    ∧ (s.disconnect.connect true).listeners = s.listeners
    ∧ ((s.disconnect.connect true).deliver event).count cb = 1 := by
  obtain ⟨sock, l⟩ := s
  have hdis : SocketServiceState.disconnect ⟨sock, l⟩ = ⟨none, l⟩ := by
    cases sock <;> rfl
  rw [hdis]
  have hcon : SocketServiceState.connect ⟨none, l⟩ true
      = ⟨some ⟨true, replayHandlers l⟩, l⟩ := rfl
  rw [hcon]
  refine ⟨rfl, rfl, ?_⟩
  show ((((replayHandlers l).filter (fun h => h.1 == event)).map (fun h => h.2)).count cb) = 1
  rw [replay_deliver_count l event cb hkeys]
  exact hreg

/-- Concrete instance of C5: callback 7, registered once for `message`,
survives a disconnect/reconnect and is invoked exactly once. -/
theorem c5_listener_survival_witness :
    ((({ socket := none, listeners := [(("message"), [7])] } : SocketServiceState).disconnect.connect
        true).deliver ("message")).count 7 = 1 :=
  (c5_listener_survival
    { socket := none, listeners := [(("message"), [7])] } ("message") 7
    (by decide) (by decide)).2.2

/-- Claim C9 counterexample: registering the same callback twice while the
transport is attached attaches it to the transport twice (the registry
set deduplicates, but `socket.on` is called again), so one delivered
event invokes it twice — not once as the claim states. -/
theorem c9_double_on_double_invoke :
    ((((({ socket := none, listeners := [] } : SocketServiceState).connect true).on
        ("msg") 7).on ("msg") 7).deliver ("msg")) = [7, 7]
    ∧ ¬(((((({ socket := none, listeners := [] } : SocketServiceState).connect true).on
        ("msg") 7).on ("msg") 7).deliver ("msg")).count 7 = 1) := by
  decide

/-- Claim C9 (amended): the listener registry itself is idempotent —
adding a callback twice leaves the registry as after one add, and a
callback absent before registration is held exactly once afterwards — and
duplicate registration while the transport is detached still yields
exactly-once delivery after `connect`; independent subscribers are each
invoked exactly once per event; removing a never-registered callback is a
no-op, and removal is idempotent whenever the callback is attached to the
transport at most once.  However (see the counterexample) a duplicate
`on` while the transport is attached invokes the callback twice per
event. -/
theorem c9_amended_registry_idempotence (l : List (String × List Nat))
    (event : String) (cb cb2 : Nat)
    (hkeys : (l.map Prod.fst).Nodup)
    (hcb : (registryGet l event).count cb = 0)
    (hcb2 : (registryGet l event).count cb2 = 0)
    (hne : cb ≠ cb2) :
    registryGet (registryAdd (registryAdd l event cb) event cb) event
        = registryGet (registryAdd l event cb) event
    ∧ (registryGet (registryAdd l event cb) event).count cb = 1
    ∧ ((((({ socket := none, listeners := l } : SocketServiceState).on event cb).on
          event cb).connect true).deliver event).count cb = 1
    ∧ (((((({ socket := none, listeners := l } : SocketServiceState).on event cb).on
          event cb2).connect true).deliver event).count cb = 1
        ∧ ((((({ socket := none, listeners := l } : SocketServiceState).on event cb).on
          event cb2).connect true).deliver event).count cb2 = 1)
    ∧ ({ socket := none, listeners := l } : SocketServiceState).off event cb
        = { socket := none, listeners := l }
    ∧ (∀ s : SocketServiceState,
        (∀ sk, s.socket = some sk →
          sk.handlers.countP (fun h => h.1 == event && h.2 == cb) ≤ 1) →
        (s.off event cb).off event cb = s.off event cb) := by
  have hcontains : (registryGet l event).contains cb = false :=
    contains_eq_false_of_count_zero _ _ hcb
  have hga : registryGet (registryAdd l event cb) event
      = registryGet l event ++ [cb] := by
    rw [registryGet_registryAdd, hcontains, if_neg Bool.false_ne_true]
  have hct : ((registryGet l event ++ [cb]).contains cb) = true := by simp
  have hA : registryGet (registryAdd (registryAdd l event cb) event cb) event
      = registryGet (registryAdd l event cb) event := by
    rw [registryGet_registryAdd (registryAdd l event cb) event cb, hga, hct, if_pos rfl]
  have hB : (registryGet (registryAdd l event cb) event).count cb = 1 := by
    rw [hga, List.count_append, hcb]
    simp
  have hk1 := registryAdd_nodupKeys l event cb hkeys
  have hC : ((((({ socket := none, listeners := l } : SocketServiceState).on event cb).on
        event cb).connect true).deliver event).count cb = 1 := by
    show ((((replayHandlers (registryAdd (registryAdd l event cb) event cb)).filter
        (fun h => h.1 == event)).map (fun h => h.2)).count cb) = 1
    rw [replay_deliver_count _ event cb (registryAdd_nodupKeys _ event cb hk1), hA]
    exact hB
  have hga2 : registryGet (registryAdd (registryAdd l event cb) event cb2) event
      = (registryGet l event ++ [cb]) ++ [cb2] := by
    have hc2 : ((registryGet l event ++ [cb]).contains cb2) = false := by
      apply contains_eq_false_of_count_zero
      rw [List.count_append, hcb2, List.count_singleton]
      simp [hne]
    rw [registryGet_registryAdd (registryAdd l event cb) event cb2, hga, hc2,
      if_neg Bool.false_ne_true]
  have hD1 : (((((({ socket := none, listeners := l } : SocketServiceState).on event cb).on
        event cb2).connect true).deliver event).count cb) = 1 := by
    show ((((replayHandlers (registryAdd (registryAdd l event cb) event cb2)).filter
        (fun h => h.1 == event)).map (fun h => h.2)).count cb) = 1
    rw [replay_deliver_count _ event cb (registryAdd_nodupKeys _ event cb2 hk1), hga2,
      List.count_append, List.count_append, hcb, List.count_singleton,
      List.count_singleton]
    have hne' : cb2 ≠ cb := fun h => hne h.symm
    simp [hne']
  have hD2 : (((((({ socket := none, listeners := l } : SocketServiceState).on event cb).on
        event cb2).connect true).deliver event).count cb2) = 1 := by
    show ((((replayHandlers (registryAdd (registryAdd l event cb) event cb2)).filter
        (fun h => h.1 == event)).map (fun h => h.2)).count cb2) = 1
    rw [replay_deliver_count _ event cb2 (registryAdd_nodupKeys _ event cb2 hk1), hga2,
      List.count_append, List.count_append, hcb2, List.count_singleton,
      List.count_singleton]
    simp [hne]
  have hE : ({ socket := none, listeners := l } : SocketServiceState).off event cb
      = { socket := none, listeners := l } := by
    have hrem := registryRemove_of_count_zero l event cb hkeys hcb
    simp [SocketServiceState.off, hrem]
  have hF : ∀ s : SocketServiceState,
      (∀ sk, s.socket = some sk →
        sk.handlers.countP (fun h => h.1 == event && h.2 == cb) ≤ 1) →
      (s.off event cb).off event cb = s.off event cb := by
    intro s hh
    obtain ⟨sock, l'⟩ := s
    cases sock with
    | none => simp [SocketServiceState.off, registryRemove_idem]
    | some sk =>
        have h1 := hh sk rfl
        simp [SocketServiceState.off, registryRemove_idem, removeFirst_idem _ _ h1]
  exact ⟨hA, hB, hC, ⟨hD1, hD2⟩, hE, hF⟩

/-- Concrete instance of the amended C9 theorem: duplicate registration of
callback 7 while detached still delivers it exactly once after connect. -/
theorem c9_amended_registry_idempotence_witness :
    ((((({ socket := none, listeners := [] } : SocketServiceState).on ("msg") 7).on
        ("msg") 7).connect true).deliver ("msg")).count 7 = 1 :=
  (c9_amended_registry_idempotence [] ("msg") 7 8 (by decide) (by decide) (by decide)
    (by decide)).2.2.1
